import Mathlib

/-!
# Dash: ingestion dispatch and clustering input of `src/App.js`

A shallow embedding of the non-UI logic of `App.js`:

* `onDrop` (lines 24-78): read-mode selection and the `reader.onload` handler with its
  `if / else if` dispatch on `file.name.endsWith(...)`;
* `clusterData` (lines 82-87): extraction of the point list and the call of the clustering
  routine.

React state (`data`, `clusters`, `loading`, `progress`) is an explicit record that is threaded
through the handlers; a JavaScript exception is an error outcome that keeps the state updates
made before the throw.  Library routines that `App.js` only imports or references
(`JSON.parse`, `Papa.parse`, `arrow.Table.from`, `parseString`, the three `convert*ToGeoJSON`
helpers and `DBSCAN.fit`) are parameters collected in `Externals`.
-/

namespace Dash

/-! ## JavaScript values -/

/-- JavaScript data values as they flow through `App.js`: the results of `JSON.parse` plus
`undefined`.  A number is given by its numeric value; the handlers never compute with numbers,
they only pass them on. -/
inductive JSValue where
  | undefined : JSValue
  | null : JSValue
  | bool (b : Bool) : JSValue
  | number (q : ℚ) : JSValue
  | string (s : String) : JSValue
  | array (elems : List JSValue) : JSValue
  | object (props : List (String × JSValue)) : JSValue

/-- Exceptions that can escape a handler. -/
inductive JSError where
  | typeError (msg : String) : JSError
  | parseError (msg : String) : JSError
  | other (msg : String) : JSError
  deriving DecidableEq, Repr

/-- Property read `v.key` for the keys used in `App.js` (`features`, `geometry`,
`coordinates`, `data`), none of which is a prototype property: reading a property of
`undefined` or `null` throws a `TypeError`, an object yields its own property or `undefined`,
and every other value yields `undefined`. -/
def getProp (v : JSValue) (key : String) : Except JSError JSValue :=
  match v with
  | .undefined => .error (.typeError ("Cannot read properties of undefined (reading " ++ key ++ ")"))
  | .null => .error (.typeError ("Cannot read properties of null (reading " ++ key ++ ")"))
  | .object props =>
    match props.lookup key with
    | some x => .ok x
    | none => .ok .undefined
  | _ => .ok .undefined

/-- The loop of `Array.prototype.map` with a callback that may throw: elements are visited in
index order and the first exception aborts the loop. -/
def mapThrowing (f : JSValue → Except JSError JSValue) : List JSValue → Except JSError (List JSValue)
  | [] => .ok []
  | x :: xs =>
    match f x with
    | .error e => .error e
    | .ok y =>
      match mapThrowing f xs with
      | .error e => .error e
      | .ok ys => .ok (y :: ys)

/-- Method call `v.map(f)`: only an array has a callable `map`; `undefined` and `null` throw on
the property read, every other data value throws because `map` is not a function. -/
def callMap (v : JSValue) (f : JSValue → Except JSError JSValue) : Except JSError (List JSValue) :=
  match v with
  | .array elems => mapThrowing f elems
  | .undefined => .error (.typeError "Cannot read properties of undefined (reading map)")
  | .null => .error (.typeError "Cannot read properties of null (reading map)")
  | _ => .error (.typeError "map is not a function")

/-! ## Files, reader results and application state -/

/-- A dropped file: its name and its bytes. -/
structure File where
  name : String
  bytes : List Nat

/-- How `onDrop` asks the `FileReader` to read the file (lines 73-77). -/
inductive ReadMode where
  | text : ReadMode
  | arrayBuffer : ReadMode
  deriving DecidableEq, Repr

/-- The value of `e.target.result` handed to `reader.onload`. -/
inductive ReadResult where
  | text (s : String) : ReadResult
  | arrayBuffer (bytes : List Nat) : ReadResult
  deriving DecidableEq, Repr

/-- The branch of the `if / else if` chain of `reader.onload` that is entered (lines 41-69);
`none` when every condition is false. -/
inductive Branch where
  | geojson : Branch
  | csv : Branch
  | arrow : Branch
  | kml : Branch
  | none : Branch
  deriving DecidableEq, Repr

/-- One invocation `dbscan.fit(points, epsilon, minPoints)` as seen by the library. -/
structure FitCall where
  points : List JSValue
  epsilon : JSValue
  minPoints : JSValue

/-- The `useState` cells of `App` (lines 18-21), the pending `setTimeout` of line 71, and the
log of calls made to the clustering routine. -/
structure AppState where
  data : JSValue
  clusters : JSValue
  loading : Bool
  progress : Nat
  loadingResetPending : Bool
  fitCalls : List FitCall

/-- The state after the first render: `useState(null)`, `useState([])`, `useState(false)`,
`useState(0)`. -/
def AppState.initial : AppState :=
  { data := .null, clusters := .array [], loading := false, progress := 0,
    loadingResetPending := false, fitCalls := [] }

/-- Library routines used by `App.js`; `Table` is the type of decoded Arrow tables. -/
structure Externals (Table : Type) where
  decodeText : List Nat → String
  jsonParse : ReadResult → Except JSError JSValue
  papaParse : ReadResult → Except JSError JSValue
  arrowTableFrom : ReadResult → Except JSError Table
  parseString : ReadResult → Except JSError JSValue
  convertCSVtoGeoJSON : JSValue → Except JSError JSValue
  convertArrowToGeoJSON : Table → Except JSError JSValue
  convertKMLToGeoJSON : JSValue → Except JSError JSValue
  fit : List JSValue → JSValue → JSValue → Except JSError JSValue

/-- What a handler leaves behind: the state, the exception that escaped it (if any) and the
dispatch branch it entered. -/
structure Outcome where
  state : AppState
  error : Option JSError
  branch : Branch

/-! ## `String.prototype.endsWith` -/

/-- The call `s.endsWith(suffix)` without an end position. -/
def endsWith (s suffix : String) : Bool :=
  suffix.data.isSuffixOf s.data

/-! ## `clusterData` (lines 82-87) -/

/-- The callback of line 83: `(f) => f.geometry.coordinates`. -/
def pointOf (f : JSValue) : Except JSError JSValue :=
  match getProp f "geometry" with
  | .error e => .error e
  | .ok geometry => getProp geometry "coordinates"

/-- Line 83: `geojson.features.map((f) => f.geometry.coordinates)`. -/
def clusterPoints (geojson : JSValue) : Except JSError (List JSValue) :=
  match getProp geojson "features" with
  | .error e => .error e
  | .ok features => callMap features pointOf

/-- Lines 82-87: build the point list, call `dbscan.fit(points, 0.05, 2)` and store the result
with `setClusters`.  Returns the state and the exception thrown, if any. -/
def clusterData {Table : Type} (ext : Externals Table) (geojson : JSValue) (s : AppState) :
    AppState × Option JSError :=
  match clusterPoints geojson with
  | .error e => (s, some e)
  | .ok points =>
    let s1 := { s with fitCalls := s.fitCalls ++ [⟨points, .number 0.05, .number 2⟩] }
    match ext.fit points (.number 0.05) (.number 2) with
    | .error e => (s1, some e)
    | .ok clusters => ({ s1 with clusters := clusters }, none)

/-! ## `onDrop` and `reader.onload` (lines 24-78) -/

/-- Lines 43-44, 51-52, 59-60, 65-66: `setData(geojson); clusterData(geojson);`. -/
def storeAndCluster {Table : Type} (ext : Externals Table) (geojson : JSValue) (s : AppState) :
    AppState × Option JSError :=
  clusterData ext geojson { s with data := geojson }

/-- Lines 70-71 after a branch body: if the body threw, the handler stops there; otherwise
`setProgress(100)` runs and the loading reset is scheduled. -/
def finishLoad (b : Branch) (r : AppState × Option JSError) : Outcome :=
  match r.2 with
  | some e => ⟨r.1, some e, b⟩
  | none => ⟨{ r.1 with progress := 100, loadingResetPending := true }, none, b⟩

/-- Lines 38-72: the `reader.onload` handler for the file called `name` whose read result is
`content`. -/
def onload {Table : Type} (ext : Externals Table) (name : String) (content : ReadResult)
    (s : AppState) : Outcome :=
  let s80 := { s with progress := 80 }
  if endsWith name ".json" || endsWith name ".geojson" then
    finishLoad .geojson
      (match ext.jsonParse content with
       | .error e => (s80, some e)
       | .ok geojson => storeAndCluster ext geojson s80)
  else if endsWith name ".csv" then
    finishLoad .csv
      (match ext.papaParse content with
       | .error e => (s80, some e)
       | .ok result =>
         match getProp result "data" with
         | .error e => (s80, some e)
         | .ok rows =>
           match ext.convertCSVtoGeoJSON rows with
           | .error e => (s80, some e)
           | .ok geojson => storeAndCluster ext geojson s80)
  else if endsWith name ".arrow" then
    finishLoad .arrow
      (match ext.arrowTableFrom content with
       | .error e => (s80, some e)
       | .ok table =>
         match ext.convertArrowToGeoJSON table with
         | .error e => (s80, some e)
         | .ok geojson => storeAndCluster ext geojson s80)
  else if endsWith name ".kml" then
    finishLoad .kml
      (match ext.parseString content with
       | .error _ => (s80, none)
       | .ok result =>
         match ext.convertKMLToGeoJSON result with
         | .error e => (s80, some e)
         | .ok geojson => storeAndCluster ext geojson s80)
  else
    finishLoad .none (s80, none)

/-- Lines 73-77: `readAsArrayBuffer` for a name ending in `.arrow`, `readAsText` otherwise. -/
def readMode (file : File) : ReadMode :=
  if endsWith file.name ".arrow" then .arrayBuffer else .text

/-- The result the `FileReader` delivers for a file read in the given mode. -/
def readFile {Table : Type} (ext : Externals Table) (mode : ReadMode) (file : File) : ReadResult :=
  match mode with
  | .text => .text (ext.decodeText file.bytes)
  | .arrayBuffer => .arrayBuffer file.bytes

/-- Lines 24-78: `onDrop`, run up to the completion of the read it starts.  Nothing happens for
an empty list; otherwise loading is switched on, progress is set to 10 and the first file is
read in the mode chosen from its name and handed to `onload`. -/
def onDrop {Table : Type} (ext : Externals Table) (acceptedFiles : List File) (s : AppState) :
    Outcome :=
  match acceptedFiles with
  | [] => ⟨s, none, .none⟩
  | file :: _ =>
    let s10 := { s with loading := true, progress := 10 }
    onload ext file.name (readFile ext (readMode file) file) s10

/-! ## Notions used to state the properties -/

/-- Lower-casing of a filename, letter by letter (the letters `A` to `Z`; the five extensions
consist of characters it leaves alone). -/
def lowerCase (s : String) : String :=
  ⟨s.data.map Char.toLower⟩

/-- The filename ends, as written, in one of the five extensions of the dispatch chain. -/
def recognized (name : String) : Bool :=
  endsWith name ".json" || endsWith name ".geojson" || endsWith name ".csv" ||
    endsWith name ".arrow" || endsWith name ".kml"

/-- Library routines that succeed on every input with fixed results: every parser and
converter returns `v`, and the clustering routine returns `labels`. -/
def constExternals (v labels : JSValue) : Externals Unit :=
  { decodeText := fun _ => "",
    jsonParse := fun _ => .ok v,
    papaParse := fun _ => .ok v,
    arrowTableFrom := fun _ => .ok (),
    parseString := fun _ => .ok v,
    convertCSVtoGeoJSON := fun _ => .ok v,
    convertArrowToGeoJSON := fun _ => .ok v,
    convertKMLToGeoJSON := fun _ => .ok v,
    fit := fun _ _ _ => .ok labels }

/-- The parsed value has a `features` array. -/
def hasFeaturesArray (geojson : JSValue) : Bool :=
  match getProp geojson "features" with
  | .ok (.array _) => true
  | _ => false

/-- The element has no geometry to read coordinates from: it is `undefined` or `null` itself,
or its `geometry` is missing or `null`. -/
def lacksGeometry (f : JSValue) : Bool :=
  match getProp f "geometry" with
  | .error _ => true
  | .ok .undefined => true
  | .ok .null => true
  | .ok _ => false

/-- The element has a geometry, but the geometry has no `coordinates`. -/
def lacksCoordinates (f : JSValue) : Bool :=
  match getProp f "geometry" with
  | .error _ => false
  | .ok .undefined => false
  | .ok .null => false
  | .ok geometry =>
    match getProp geometry "coordinates" with
    | .ok .undefined => true
    | _ => false

/-- The value of `geometry.coordinates` of an element that has one. -/
def coordinatesOf (f : JSValue) : Option JSValue :=
  match getProp f "geometry" with
  | .error _ => none
  | .ok geometry =>
    match getProp geometry "coordinates" with
    | .error _ => none
    | .ok .undefined => none
    | .ok c => some c

/-- A GeoJSON Point feature with the given coordinates and properties. -/
def pointFeature (lon lat : ℚ) (props : List (String × JSValue)) : JSValue :=
  .object [("type", .string "Feature"),
    ("geometry", .object [("type", .string "Point"),
      ("coordinates", .array [.number lon, .number lat])]),
    ("properties", .object props)]

/-- A GeoJSON FeatureCollection with the given features. -/
def featureCollection (features : List JSValue) : JSValue :=
  .object [("type", .string "FeatureCollection"), ("features", .array features)]

/-- The branch selected by the conditions of lines 41, 45, 55 and 61, read off the chain. -/
def dispatch (name : String) : Branch :=
  if endsWith name ".json" || endsWith name ".geojson" then .geojson
  else if endsWith name ".csv" then .csv
  else if endsWith name ".arrow" then .arrow
  else if endsWith name ".kml" then .kml
  else .none

/-! ## ClusterEngine (DBSCAN)

`App.js` imports the clustering routine from a library (`ml-dbscan`, line 6) and only calls
it; its code is not part of the repository sources.  The definitions of this section follow
section 4.7 of the specification. -/

namespace ClusterEngine

/-- Modelled from the spec: coordinates of a feature, the ordered pair (longitude, latitude)
of finite numbers (section 3); the clustering library itself is not among the sources. -/
abbrev Point := ℚ × ℚ

/-- Modelled from the spec: a `Feature` of section 3, a point with its properties; the engine
only reads the coordinates. -/
structure Feature where
  coordinates : Point
  properties : List (String × JSValue)

/-- Modelled from the spec: the pluggable distance metric of section 4.7. -/
abbrev DistanceMetric := Point → Point → ℚ

/-- Modelled from the spec: `ClusterParams` of section 3, the neighbourhood radius `epsilon`
and the minimum neighbourhood size `minPoints` (self included) of a core point. -/
structure ClusterParams where
  epsilon : ℚ
  minPoints : Nat

/-- Modelled from the spec: an entry of a `ClusterAssignment` (section 3), a cluster id or the
sentinel `Noise`. -/
inductive Label where
  | noise : Label
  | cluster (id : Nat) : Label
  deriving DecidableEq, Repr

/-- Modelled from the spec: the test of step 2 of section 4.7, whether index `j` is within
`epsilon` of index `i` under the metric. -/
def within (pts : List Point) (params : ClusterParams) (distance : DistanceMetric)
    (i j : Nat) : Bool :=
  match pts[i]?, pts[j]? with
  | some p, some q => decide (distance p q ≤ params.epsilon)
  | _, _ => false

/-- Modelled from the spec: step 2 of section 4.7, the neighbourhood of index `i`: all indices
(itself included) within `epsilon`, enumerated in collection order. -/
def neighborhood (pts : List Point) (params : ClusterParams) (distance : DistanceMetric)
    (i : Nat) : List Nat :=
  (List.range pts.length).filter (within pts params distance i)

/-- Modelled from the spec: a core point has a neighbourhood of at least `minPoints` members
(steps 3 and 4 of section 4.7). -/
def isCore (pts : List Point) (params : ClusterParams) (distance : DistanceMetric)
    (i : Nat) : Bool :=
  decide (params.minPoints ≤ (neighborhood pts params distance i).length)

/-- Modelled from the spec: step 4 of section 4.7, breadth-first expansion of cluster `cid`
from a queue of reached indices.  A reached index that already belongs to a cluster is left
where it is; any other reached index (unassigned or provisionally noise) joins the cluster,
and if it is a core point its neighbours are queued in turn.  Every step removes one queue
entry, and a step that adds entries assigns one more index, so `fuel` of
`pts.length * pts.length + pts.length` is never exhausted. -/
def expand (pts : List Point) (params : ClusterParams) (distance : DistanceMetric) (cid : Nat) :
    Nat → List Nat → List (Option Label) → List (Option Label)
  | 0, _, labels => labels
  | _ + 1, [], labels => labels
  | fuel + 1, j :: queue, labels =>
    match labels[j]? with
    | none => expand pts params distance cid fuel queue labels
    | some (some (.cluster _)) => expand pts params distance cid fuel queue labels
    | some _ =>
      if isCore pts params distance j then
        expand pts params distance cid fuel (queue ++ neighborhood pts params distance j)
          (labels.set j (some (.cluster cid)))
      else
        expand pts params distance cid fuel queue (labels.set j (some (.cluster cid)))

/-- Modelled from the spec: steps 1, 3, 4 and 5 of section 4.7.  Indices are visited in
collection order; an index that already has a label is skipped; a non-core index is marked
noise provisionally; a core index starts the cluster with the next dense id. -/
def scan (pts : List Point) (params : ClusterParams) (distance : DistanceMetric) :
    List Nat → Nat → List (Option Label) → List (Option Label)
  | [], _, labels => labels
  | i :: rest, nextId, labels =>
    match labels[i]? with
    | some none =>
      if isCore pts params distance i then
        scan pts params distance rest (nextId + 1)
          (expand pts params distance nextId (pts.length * pts.length + pts.length)
            (neighborhood pts params distance i) labels)
      else
        scan pts params distance rest nextId (labels.set i (some .noise))
    | _ => scan pts params distance rest nextId labels

/-- Modelled from the spec: the contract `cluster(collection, params, distance)` of section
4.7; the result lists the label of every feature index in collection order. -/
def cluster (collection : List Feature) (params : ClusterParams) (distance : DistanceMetric) :
    List Label :=
  let pts := collection.map (fun f => f.coordinates)
  (scan pts params distance (List.range pts.length) 0 (List.replicate pts.length none)).map
    (fun l => l.getD .noise)

/-- The planar taxicab metric, a metric computable on rational coordinates. -/
def taxicab : DistanceMetric :=
  fun p q => |p.1 - q.1| + |p.2 - q.2|

/-- A feature without properties at the given coordinates. -/
def featureAt (lon lat : ℚ) : Feature :=
  { coordinates := (lon, lat), properties := [] }

/-- A working label that is not a cluster id: unassigned or provisionally noise. -/
def unclustered (l : Option Label) : Bool :=
  match l with
  | some (.cluster _) => false
  | _ => true

/-- Invariant of the expansion on a chain: every label is unassigned, noise or the cluster
being grown; index 0 is in the cluster or queued; and the successor of every index of the
cluster is in the cluster or queued. -/
structure ChainInv (n cid : Nat) (queue : List Nat) (labels : List (Option Label)) : Prop where
  length_eq : labels.length = n
  only_cid : ∀ (i c : Nat), labels[i]? = some (some (Label.cluster c)) → c = cid
  start : labels[0]? = some (some (Label.cluster cid)) ∨ 0 ∈ queue
  closed : ∀ (i : Nat), i + 1 < n → labels[i]? = some (some (Label.cluster cid)) →
    labels[i + 1]? = some (some (Label.cluster cid)) ∨ i + 1 ∈ queue

end ClusterEngine

/-! ## Dispatch on the filename -/

theorem endsWith_iff (s t : String) : endsWith s t = true ↔ t.data <:+ s.data := by
  simp [endsWith]

/-- The branch recorded by `onload` is the one the chain of conditions selects. -/
theorem onload_branch {Table : Type} (ext : Externals Table) (name : String) (c : ReadResult)
    (s : AppState) : (onload ext name c s).branch = dispatch name := by
  unfold onload dispatch finishLoad
  simp only
  split_ifs <;> first | rfl | (split <;> rfl)

/-- A suffix made of characters that lower-casing fixes is still a suffix after lower-casing. -/
theorem endsWith_lowerCase (name t : String) (ht : t.data.map Char.toLower = t.data)
    (h : endsWith name t = true) : endsWith (lowerCase name) t = true := by
  rw [endsWith_iff] at h ⊢
  obtain ⟨pre, hpre⟩ := h
  refine ⟨pre.map Char.toLower, ?_⟩
  simp [lowerCase, ← hpre, ht]

/-- Two suffixes of one name are comparable, so a name cannot end in two of the extensions
unless one of them ends in the other. -/
theorem endsWith_exclusive (name t u : String) (h1 : ¬ t.data <:+ u.data)
    (h2 : ¬ u.data <:+ t.data) (ht : endsWith name t = true) (hu : endsWith name u = true) :
    False := by
  rw [endsWith_iff] at ht hu
  rcases List.suffix_or_suffix_of_suffix ht hu with h | h
  · exact h1 h
  · exact h2 h

/-- The branch for a name and the branch for its lower-cased form agree exactly when the name
is recognized as written or is not recognized even after lower-casing. -/
theorem dispatch_lowerCase_iff (name : String) :
    dispatch name = dispatch (lowerCase name) ↔
      (recognized name = true ∨ recognized (lowerCase name) = false) := by
  have l1 := endsWith_lowerCase name ".json" (by decide)
  have l2 := endsWith_lowerCase name ".geojson" (by decide)
  have l3 := endsWith_lowerCase name ".csv" (by decide)
  have l4 := endsWith_lowerCase name ".arrow" (by decide)
  have l5 := endsWith_lowerCase name ".kml" (by decide)
  have x13 := endsWith_exclusive (lowerCase name) ".json" ".csv" (by decide) (by decide)
  have x14 := endsWith_exclusive (lowerCase name) ".json" ".arrow" (by decide) (by decide)
  have x15 := endsWith_exclusive (lowerCase name) ".json" ".kml" (by decide) (by decide)
  have x23 := endsWith_exclusive (lowerCase name) ".geojson" ".csv" (by decide) (by decide)
  have x24 := endsWith_exclusive (lowerCase name) ".geojson" ".arrow" (by decide) (by decide)
  have x25 := endsWith_exclusive (lowerCase name) ".geojson" ".kml" (by decide) (by decide)
  have x34 := endsWith_exclusive (lowerCase name) ".csv" ".arrow" (by decide) (by decide)
  have x35 := endsWith_exclusive (lowerCase name) ".csv" ".kml" (by decide) (by decide)
  have x45 := endsWith_exclusive (lowerCase name) ".arrow" ".kml" (by decide) (by decide)
  unfold dispatch recognized
  generalize endsWith name ".json" = a1 at *
  generalize endsWith name ".geojson" = a2 at *
  generalize endsWith name ".csv" = a3 at *
  generalize endsWith name ".arrow" = a4 at *
  generalize endsWith name ".kml" = a5 at *
  generalize endsWith (lowerCase name) ".json" = b1 at *
  generalize endsWith (lowerCase name) ".geojson" = b2 at *
  generalize endsWith (lowerCase name) ".csv" = b3 at *
  generalize endsWith (lowerCase name) ".arrow" = b4 at *
  generalize endsWith (lowerCase name) ".kml" = b5 at *
  cases a1 <;> cases a2 <;> cases a3 <;> cases a4 <;> cases a5 <;> simp_all
  cases b1 <;> cases b2 <;> cases b3 <;> cases b4 <;> cases b5 <;> simp_all

/-- A name ending in `.arrow` ends in neither `.json`, `.geojson` nor `.csv`, so the earlier
conditions of the chain cannot shadow the arrow branch. -/
theorem arrow_not_shadowed (name : String) (h : endsWith name ".arrow" = true) :
    endsWith name ".json" = false ∧ endsWith name ".geojson" = false ∧
      endsWith name ".csv" = false := by
  have x1 := endsWith_exclusive name ".json" ".arrow" (by decide) (by decide)
  have x2 := endsWith_exclusive name ".geojson" ".arrow" (by decide) (by decide)
  have x3 := endsWith_exclusive name ".csv" ".arrow" (by decide) (by decide)
  refine ⟨?_, ?_, ?_⟩
  · cases h1 : endsWith name ".json" <;> simp_all
  · cases h2 : endsWith name ".geojson" <;> simp_all
  · cases h3 : endsWith name ".csv" <;> simp_all

/-- C1, as stated, fails at `POINTS.CSV`: lower-cased it ends in `.csv` and is sent to the csv
decoder, while the name as written enters no branch. -/
theorem onload_branch_upper_csv :
    recognized (lowerCase "POINTS.CSV") = true ∧
      (onload (constExternals .null (.array [])) "POINTS.CSV" (.text "lat,lon") AppState.initial).branch
        = Branch.none ∧
      (onload (constExternals .null (.array [])) (lowerCase "POINTS.CSV") (.text "lat,lon")
        AppState.initial).branch = Branch.csv := by
  decide

/-- C1 (amended): dispatch is case-sensitive.  `onload` selects for a filename the branch it
selects for the lower-cased filename exactly when the filename ends, as written, in one of
`.json`, `.geojson`, `.csv`, `.arrow`, `.kml`, or its lower-cased form ends in none of them. -/
theorem onload_branch_lowerCase_iff {Table : Type} (ext : Externals Table) (name : String)
    (c : ReadResult) (s : AppState) :
    (onload ext name c s).branch = (onload ext (lowerCase name) c s).branch ↔
      (recognized name = true ∨ recognized (lowerCase name) = false) := by
  rw [onload_branch, onload_branch]
  exact dispatch_lowerCase_iff name

/-- C2, as stated, fails at `notes.txt`: the handler completes without an error and reports
progress 100. -/
theorem onload_txt_completes :
    recognized "notes.txt" = false ∧
      (onload (constExternals .null (.array [])) "notes.txt" (.text "hello") AppState.initial).error
        = none ∧
      (onload (constExternals .null (.array [])) "notes.txt" (.text "hello")
        AppState.initial).state.progress = 100 := by
  decide

/-- C2 (amended): for a filename ending in none of the five extensions the handler enters no
decoder branch and completes without an error; `data`, `clusters` and `loading` are left as
they were, progress is set to 100 and the loading reset is scheduled. -/
theorem onload_unrecognized {Table : Type} (ext : Externals Table) (name : String)
    (c : ReadResult) (s : AppState) (h : recognized name = false) :
    onload ext name c s =
      { state := { s with progress := 100, loadingResetPending := true },
        error := none, branch := Branch.none } := by
  simp only [recognized, Bool.or_eq_false_iff] at h
  obtain ⟨⟨⟨⟨h1, h2⟩, h3⟩, h4⟩, h5⟩ := h
  simp [onload, finishLoad, h1, h2, h3, h4, h5]

/-- Witness for C2 (amended): `notes.txt`. -/
theorem onload_unrecognized_witness :
    recognized "notes.txt" = false ∧
      onload (constExternals .null (.array [])) "notes.txt" (.text "hello") AppState.initial =
        { state := { AppState.initial with progress := 100, loadingResetPending := true },
          error := none, branch := Branch.none } :=
  ⟨by decide, onload_unrecognized _ "notes.txt" _ _ (by decide)⟩

/-- C3: the selection never depends on the content.  For one filename and any two contents
(and any library behaviour and any state) the read mode chosen by `onDrop` and the decoder
branch entered by `onload` are the same. -/
theorem dispatch_ignores_content {Table : Type} (ext1 ext2 : Externals Table) (name : String)
    (bytes1 bytes2 : List Nat) (c1 c2 : ReadResult) (s1 s2 : AppState) :
    readMode ⟨name, bytes1⟩ = readMode ⟨name, bytes2⟩ ∧
      (onload ext1 name c1 s1).branch = (onload ext2 name c2 s2).branch ∧
      (onDrop ext1 [⟨name, bytes1⟩] s1).branch = (onDrop ext2 [⟨name, bytes2⟩] s2).branch := by
  refine ⟨rfl, ?_, ?_⟩
  · rw [onload_branch, onload_branch]
  · simp only [onDrop, onload_branch]

/-- C10: the file is read as an `ArrayBuffer` if and only if `onload` enters the arrow branch,
and it is read as text whenever `onload` enters the geojson, csv or kml branch. -/
theorem readMode_agrees_with_branch {Table : Type} (ext : Externals Table) (file : File)
    (c : ReadResult) (s : AppState) :
    (readMode file = ReadMode.arrayBuffer ↔ (onload ext file.name c s).branch = Branch.arrow) ∧
      ((onload ext file.name c s).branch ∈ [Branch.geojson, Branch.csv, Branch.kml] →
        readMode file = ReadMode.text) := by
  rw [onload_branch]
  unfold readMode dispatch
  cases h : endsWith file.name ".arrow"
  · simp
    split_ifs <;> simp
  · obtain ⟨h1, h2, h3⟩ := arrow_not_shadowed file.name h
    simp [h1, h2, h3]

/-- Witness for C10: `table.arrow` is read as an `ArrayBuffer` and enters the arrow branch. -/
theorem readMode_agrees_with_branch_witness :
    (readMode ⟨"table.arrow", [65, 82]⟩ = ReadMode.arrayBuffer ↔
        (onload (constExternals .null (.array [])) "table.arrow" (.arrayBuffer [65, 82])
          AppState.initial).branch = Branch.arrow) ∧
      ((onload (constExternals .null (.array [])) "table.arrow" (.arrayBuffer [65, 82])
          AppState.initial).branch ∈ [Branch.geojson, Branch.csv, Branch.kml] →
        readMode ⟨"table.arrow", [65, 82]⟩ = ReadMode.text) :=
  readMode_agrees_with_branch (constExternals .null (.array [])) ⟨"table.arrow", [65, 82]⟩
    (.arrayBuffer [65, 82]) AppState.initial
/-! ## `clusterData` -/

theorem getProp_error_typeError (v : JSValue) (key : String) (e : JSError)
    (h : getProp v key = .error e) : ∃ msg, e = .typeError msg := by
  cases v <;> simp only [getProp] at h
  · exact ⟨_, (Except.error.inj h).symm⟩
  · exact ⟨_, (Except.error.inj h).symm⟩
  all_goals first | exact Except.noConfusion h | (split at h <;> exact Except.noConfusion h)

theorem pointOf_error_typeError (f : JSValue) (e : JSError) (h : pointOf f = .error e) :
    ∃ msg, e = .typeError msg := by
  unfold pointOf at h
  split at h
  · next e1 h1 =>
    cases h
    exact getProp_error_typeError _ _ _ h1
  · exact getProp_error_typeError _ _ _ h

/-- Reading `f.geometry.coordinates` throws exactly for the elements without a geometry. -/
theorem pointOf_error_iff (f : JSValue) :
    (∃ e, pointOf f = .error e) ↔ lacksGeometry f = true := by
  unfold pointOf lacksGeometry
  cases hg : getProp f "geometry" with
  | error e => simp
  | ok geometry =>
    cases geometry <;> simp [getProp]
    intro e
    split <;> simp

/-- An element whose geometry has no coordinates yields `undefined`. -/
theorem pointOf_of_lacksCoordinates (f : JSValue) (h : lacksCoordinates f = true) :
    pointOf f = .ok .undefined := by
  unfold lacksCoordinates at h
  unfold pointOf
  cases hg : getProp f "geometry" with
  | error e => simp [hg] at h
  | ok geometry =>
    rw [hg] at h
    cases hc : getProp geometry "coordinates" with
    | error e => cases geometry <;> simp [hc] at h
    | ok c => cases geometry <;> cases c <;> simp [hc] at h ⊢

theorem pointOf_of_coordinatesOf (f c : JSValue) (h : coordinatesOf f = some c) :
    pointOf f = .ok c := by
  unfold coordinatesOf at h
  unfold pointOf
  cases hg : getProp f "geometry" with
  | error e => simp [hg] at h
  | ok geometry =>
    rw [hg] at h
    cases hc : getProp geometry "coordinates" with
    | error e => simp [hc] at h
    | ok c1 => cases c1 <;> simp [hc] at h ⊢ <;> exact h

/-- The map loop throws as soon as the callback throws on some element. -/
theorem mapThrowing_error_of_mem (g : JSValue → Except JSError JSValue) (fs : List JSValue)
    (h : ∃ f ∈ fs, ∃ e, g f = .error e) :
    ∃ f ∈ fs, ∃ e, g f = .error e ∧ mapThrowing g fs = .error e := by
  induction fs with
  | nil => simp at h
  | cons x xs ih =>
    cases hx : g x with
    | error e => exact ⟨x, by simp, e, hx, by simp [mapThrowing, hx]⟩
    | ok y =>
      have h2 : ∃ f ∈ xs, ∃ e, g f = .error e := by
        obtain ⟨f, hf, e, he⟩ := h
        rcases List.mem_cons.mp hf with rfl | hf
        · rw [hx] at he
          exact Except.noConfusion he
        · exact ⟨f, hf, e, he⟩
      obtain ⟨f, hf, e, he, hmap⟩ := ih h2
      exact ⟨f, List.mem_cons_of_mem _ hf, e, he, by simp [mapThrowing, hx, hmap]⟩

/-- When the callback succeeds on every element, the map loop returns the results one per
element, in order. -/
theorem mapThrowing_ok (g : JSValue → Except JSError JSValue) (fs pts : List JSValue)
    (h : List.Forall₂ (fun f p => g f = .ok p) fs pts) : mapThrowing g fs = .ok pts := by
  induction h with
  | nil => rfl
  | cons hx _ ih => simp [mapThrowing, hx, ih]

theorem mapThrowing_ok_inv (g : JSValue → Except JSError JSValue) (fs pts : List JSValue)
    (h : mapThrowing g fs = .ok pts) : List.Forall₂ (fun f p => g f = .ok p) fs pts := by
  induction fs generalizing pts with
  | nil =>
    simp only [mapThrowing] at h
    cases h
    exact List.Forall₂.nil
  | cons x xs ih =>
    simp only [mapThrowing] at h
    split at h
    · exact Except.noConfusion h
    · next y hy =>
      split at h
      · exact Except.noConfusion h
      · next ys hys =>
        cases h
        exact List.Forall₂.cons hy (ih ys hys)

theorem mapThrowing_total (g : JSValue → Except JSError JSValue) (fs : List JSValue)
    (h : ∀ f ∈ fs, ∃ p, g f = .ok p) : ∃ pts, mapThrowing g fs = .ok pts := by
  induction fs with
  | nil => exact ⟨[], rfl⟩
  | cons x xs ih =>
    obtain ⟨y, hy⟩ := h x (by simp)
    obtain ⟨ys, hys⟩ := ih (fun f hf => h f (List.mem_cons_of_mem _ hf))
    exact ⟨y :: ys, by simp [mapThrowing, hy, hys]⟩

/-- Without a `features` array, line 83 throws a `TypeError`. -/
theorem clusterPoints_no_features_array (g : JSValue) (h : hasFeaturesArray g = false) :
    ∃ msg, clusterPoints g = .error (.typeError msg) := by
  unfold hasFeaturesArray at h
  unfold clusterPoints
  cases hf : getProp g "features" with
  | error e =>
    obtain ⟨msg, rfl⟩ := getProp_error_typeError _ _ _ hf
    exact ⟨msg, rfl⟩
  | ok features =>
    rw [hf] at h
    cases features <;> simp [callMap] at h ⊢

theorem clusterData_of_points_error {Table : Type} (ext : Externals Table) (g : JSValue)
    (s : AppState) (e : JSError) (h : clusterPoints g = .error e) :
    clusterData ext g s = (s, some e) := by
  simp [clusterData, h]

theorem clusterData_fitCalls {Table : Type} (ext : Externals Table) (g : JSValue)
    (s : AppState) (pts : List JSValue) (h : clusterPoints g = .ok pts) :
    (clusterData ext g s).1.fitCalls = s.fitCalls ++ [⟨pts, .number 0.05, .number 2⟩] := by
  simp only [clusterData, h]
  split <;> rfl

theorem clusterData_data {Table : Type} (ext : Externals Table) (g : JSValue) (s : AppState) :
    (clusterData ext g s).1.data = s.data := by
  unfold clusterData
  split
  · rfl
  · simp only
    split <;> rfl

/-- C4, as stated, fails for a parsed object without `features`: the ingestion does fail, but
`setData` has already replaced the stored value (`null` before) by the parsed value. -/
theorem onload_missing_features_stores_data :
    hasFeaturesArray (.object [("type", .string "FeatureCollection")]) = false ∧
      AppState.initial.data = .null ∧
      (onload (constExternals (.object [("type", .string "FeatureCollection")]) (.array []))
        "points.geojson" (.text "\x7b\"type\":\"FeatureCollection\"\x7d") AppState.initial).error
        = some (.typeError "Cannot read properties of undefined (reading map)") ∧
      (onload (constExternals (.object [("type", .string "FeatureCollection")]) (.array []))
        "points.geojson" (.text "\x7b\"type\":\"FeatureCollection\"\x7d")
        AppState.initial).state.data = .object [("type", .string "FeatureCollection")] ∧
      (onload (constExternals (.object [("type", .string "FeatureCollection")]) (.array []))
        "points.geojson" (.text "\x7b\"type\":\"FeatureCollection\"\x7d")
        AppState.initial).state.data ≠ AppState.initial.data :=
  ⟨rfl, rfl, rfl, rfl, fun h => JSValue.noConfusion h⟩

/-- C4 (amended): for a `.json` / `.geojson` input whose parsed value has no `features` array
the ingestion fails with a `TypeError` thrown by `clusterData` before the clustering routine is
called: `clusters` and the call log are unchanged and progress stays at 80.  The `data` state
has already been set to the parsed value. -/
theorem onload_no_features_array {Table : Type} (ext : Externals Table) (name : String)
    (c : ReadResult) (s : AppState) (g : JSValue)
    (hname : (endsWith name ".json" || endsWith name ".geojson") = true)
    (hparse : ext.jsonParse c = .ok g) (hno : hasFeaturesArray g = false) :
    (∃ msg, (onload ext name c s).error = some (.typeError msg)) ∧
      (onload ext name c s).state.clusters = s.clusters ∧
      (onload ext name c s).state.fitCalls = s.fitCalls ∧
      (onload ext name c s).state.progress = 80 ∧
      (onload ext name c s).state.data = g := by
  obtain ⟨msg, hmsg⟩ := clusterPoints_no_features_array g hno
  simp [onload, finishLoad, hname, hparse, storeAndCluster, clusterData, hmsg]

/-- Witness for C4 (amended): `a.json` whose content parses to an empty object. -/
theorem onload_no_features_array_witness :
    (∃ msg, (onload (constExternals (.object []) (.array [])) "a.json" (.text "\x7b\x7d")
        AppState.initial).error = some (.typeError msg)) ∧
      (onload (constExternals (.object []) (.array [])) "a.json" (.text "\x7b\x7d")
        AppState.initial).state.clusters = AppState.initial.clusters ∧
      (onload (constExternals (.object []) (.array [])) "a.json" (.text "\x7b\x7d")
        AppState.initial).state.fitCalls = AppState.initial.fitCalls ∧
      (onload (constExternals (.object []) (.array [])) "a.json" (.text "\x7b\x7d")
        AppState.initial).state.progress = 80 ∧
      (onload (constExternals (.object []) (.array [])) "a.json" (.text "\x7b\x7d")
        AppState.initial).state.data = .object [] :=
  onload_no_features_array (constExternals (.object []) (.array [])) "a.json" (.text "\x7b\x7d")
    AppState.initial (.object []) (by decide) rfl rfl

/-- C5, as stated, fails.  With a second feature that has no geometry `clusterData` throws and
clusters nothing; with a second feature whose geometry has no coordinates the point list
handed to the clustering routine still has two entries, the second being `undefined`. -/
theorem clusterData_keeps_defective_features :
    clusterData (constExternals .null (.array []))
        (featureCollection [pointFeature 0 0 [], .object [("type", .string "Feature")]])
        AppState.initial
      = (AppState.initial,
          some (.typeError "Cannot read properties of undefined (reading coordinates)")) ∧
      (clusterData (constExternals .null (.array []))
        (featureCollection [pointFeature 0 0 [],
          .object [("geometry", .object [("type", .string "Point")])]])
        AppState.initial).1.fitCalls
      = [⟨[.array [.number 0, .number 0], .undefined], .number 0.05, .number 2⟩] :=
  ⟨rfl, rfl⟩

/-- C5 (amended): `clusterData` filters nothing.  If some element of `features` has no geometry,
`clusterData` throws a `TypeError` before the clustering routine is called and the state is
left as it was.  Otherwise the clustering routine is called with one entry per element, in
order, and the entry of an element whose geometry has no coordinates is `undefined`. -/
theorem clusterData_no_record_filtering {Table : Type} (ext : Externals Table) (g : JSValue)
    (fs : List JSValue) (s : AppState) (hfs : getProp g "features" = .ok (.array fs)) :
    ((∃ f ∈ fs, lacksGeometry f = true) →
        ∃ msg, clusterData ext g s = (s, some (.typeError msg))) ∧
      ((∀ f ∈ fs, lacksGeometry f = false) →
        ∃ pts, (clusterData ext g s).1.fitCalls = s.fitCalls ++ [⟨pts, .number 0.05, .number 2⟩] ∧
          pts.length = fs.length ∧
          ∀ i (hi : i < fs.length) (hp : i < pts.length),
            pointOf fs[i] = .ok pts[i] ∧ (lacksCoordinates fs[i] = true → pts[i] = .undefined)) := by
  have hcp : clusterPoints g = mapThrowing pointOf fs := by simp [clusterPoints, hfs, callMap]
  constructor
  · rintro ⟨f, hf, hlack⟩
    obtain ⟨e, he⟩ := (pointOf_error_iff f).mpr hlack
    obtain ⟨f1, _, e1, he1, hmap⟩ := mapThrowing_error_of_mem pointOf fs ⟨f, hf, e, he⟩
    obtain ⟨msg, rfl⟩ := pointOf_error_typeError f1 e1 he1
    exact ⟨msg, clusterData_of_points_error ext g s _ (hcp.trans hmap)⟩
  · intro hall
    have hok : ∀ f ∈ fs, ∃ p, pointOf f = .ok p := by
      intro f hf
      cases hp : pointOf f with
      | ok p => exact ⟨p, rfl⟩
      | error e =>
        have := (pointOf_error_iff f).mp ⟨e, hp⟩
        rw [hall f hf] at this
        exact absurd this (by simp)
    obtain ⟨pts, hpts⟩ := mapThrowing_total pointOf fs hok
    have hF := mapThrowing_ok_inv pointOf fs pts hpts
    refine ⟨pts, clusterData_fitCalls ext g s pts (hcp.trans hpts), hF.length_eq.symm, ?_⟩
    intro i hi hp
    have hget : pointOf fs[i] = .ok pts[i] := (List.forall₂_iff_get.mp hF).2 i hi hp
    refine ⟨hget, fun hl => ?_⟩
    have := pointOf_of_lacksCoordinates fs[i] hl
    rw [hget] at this
    exact Except.ok.inj this

/-- Witness for C5 (amended): a Point feature followed by a feature whose geometry has no
coordinates. -/
theorem clusterData_no_record_filtering_witness :
    ((∃ f ∈ [pointFeature 0 0 [], JSValue.object [("geometry", .object [])]],
          lacksGeometry f = true) →
        ∃ msg, clusterData (constExternals .null (.array []))
          (featureCollection [pointFeature 0 0 [], .object [("geometry", .object [])]])
          AppState.initial = (AppState.initial, some (.typeError msg))) ∧
      ((∀ f ∈ [pointFeature 0 0 [], JSValue.object [("geometry", .object [])]],
          lacksGeometry f = false) →
        ∃ pts, (clusterData (constExternals .null (.array []))
            (featureCollection [pointFeature 0 0 [], .object [("geometry", .object [])]])
            AppState.initial).1.fitCalls
            = AppState.initial.fitCalls ++ [⟨pts, .number 0.05, .number 2⟩] ∧
          pts.length = [pointFeature 0 0 [], JSValue.object [("geometry", .object [])]].length ∧
          ∀ i (hi : i < [pointFeature 0 0 [], JSValue.object [("geometry", .object [])]].length)
            (hp : i < pts.length),
            pointOf [pointFeature 0 0 [], JSValue.object [("geometry", .object [])]][i]
              = .ok pts[i] ∧
            (lacksCoordinates [pointFeature 0 0 [], JSValue.object [("geometry", .object [])]][i]
              = true → pts[i] = .undefined)) :=
  clusterData_no_record_filtering (constExternals .null (.array []))
    (featureCollection [pointFeature 0 0 [], .object [("geometry", .object [])]])
    [pointFeature 0 0 [], .object [("geometry", .object [])]] AppState.initial rfl

/-- C6: GeoJSON passthrough.  For a `.json` / `.geojson` file whose content parses to `g` (in
particular to a well-formed FeatureCollection of Point features), the collection stored in
`data` is `g` itself: same features, same order, same coordinates and properties. -/
theorem onload_geojson_passthrough {Table : Type} (ext : Externals Table) (name : String)
    (c : ReadResult) (s : AppState) (g : JSValue)
    (hname : (endsWith name ".json" || endsWith name ".geojson") = true)
    (hparse : ext.jsonParse c = .ok g) :
    (onload ext name c s).state.data = g := by
  have hd := clusterData_data ext g { s with progress := 80, data := g }
  simp only [onload, finishLoad, hname, hparse, storeAndCluster, if_true]
  split
  · exact hd
  · exact hd

/-- Witness for C6: `cities.geojson` with two Point features. -/
theorem onload_geojson_passthrough_witness :
    (onload (constExternals
        (featureCollection [pointFeature 2 48 [("name", .string "a")], pointFeature 13 52 []])
        (.array [.number 0, .number 0])) "cities.geojson" (.text "") AppState.initial).state.data
      = featureCollection [pointFeature 2 48 [("name", .string "a")], pointFeature 13 52 []] :=
  onload_geojson_passthrough _ "cities.geojson" (.text "") AppState.initial _ (by decide) rfl

/-- C7: index alignment.  For a collection whose `features` array has n elements that all have
`geometry.coordinates`, the point list handed to the clustering routine has exactly n entries
and its i-th entry is the coordinates of the i-th feature. -/
theorem clusterData_points_aligned {Table : Type} (ext : Externals Table) (g : JSValue)
    (fs : List JSValue) (s : AppState) (hfs : getProp g "features" = .ok (.array fs))
    (hall : ∀ f ∈ fs, (coordinatesOf f).isSome = true) :
    ∃ pts, (clusterData ext g s).1.fitCalls = s.fitCalls ++ [⟨pts, .number 0.05, .number 2⟩] ∧
      pts.length = fs.length ∧
      ∀ i (hi : i < fs.length) (hp : i < pts.length), coordinatesOf fs[i] = some pts[i] := by
  have hcp : clusterPoints g = mapThrowing pointOf fs := by simp [clusterPoints, hfs, callMap]
  have hok : ∀ f ∈ fs, ∃ p, pointOf f = .ok p := by
    intro f hf
    obtain ⟨c, hc⟩ := Option.isSome_iff_exists.mp (hall f hf)
    exact ⟨c, pointOf_of_coordinatesOf f c hc⟩
  obtain ⟨pts, hpts⟩ := mapThrowing_total pointOf fs hok
  have hF := mapThrowing_ok_inv pointOf fs pts hpts
  refine ⟨pts, clusterData_fitCalls ext g s pts (hcp.trans hpts), hF.length_eq.symm, ?_⟩
  intro i hi hp
  have hget : pointOf fs[i] = .ok pts[i] := (List.forall₂_iff_get.mp hF).2 i hi hp
  obtain ⟨c, hc⟩ := Option.isSome_iff_exists.mp (hall fs[i] (List.getElem_mem _))
  have := pointOf_of_coordinatesOf fs[i] c hc
  rw [hget] at this
  rw [hc, Except.ok.inj this]

/-- Witness for C7: a collection of two Point features. -/
theorem clusterData_points_aligned_witness :
    ∃ pts, (clusterData (constExternals .null (.array []))
        (featureCollection [pointFeature 2 48 [], pointFeature 13 52 []])
        AppState.initial).1.fitCalls
        = AppState.initial.fitCalls ++ [⟨pts, .number 0.05, .number 2⟩] ∧
      pts.length = [pointFeature 2 48 [], pointFeature 13 52 []].length ∧
      ∀ i (hi : i < [pointFeature 2 48 [], pointFeature 13 52 []].length) (hp : i < pts.length),
        coordinatesOf [pointFeature 2 48 [], pointFeature 13 52 []][i] = some pts[i] :=
  clusterData_points_aligned (constExternals .null (.array []))
    (featureCollection [pointFeature 2 48 [], pointFeature 13 52 []])
    [pointFeature 2 48 [], pointFeature 13 52 []] AppState.initial rfl
    (by
      intro f hf
      simp only [List.mem_cons, List.mem_singleton, List.not_mem_nil, or_false] at hf
      rcases hf with rfl | rfl <;> rfl)

namespace ClusterEngine

theorem mem_neighborhood (pts : List Point) (params : ClusterParams) (distance : DistanceMetric)
    (i j : Nat) :
    j ∈ neighborhood pts params distance i ↔
      j < pts.length ∧ within pts params distance i j = true := by
  simp [neighborhood, List.mem_filter]

theorem neighborhood_length_le (pts : List Point) (params : ClusterParams)
    (distance : DistanceMetric) (i : Nat) :
    (neighborhood pts params distance i).length ≤ pts.length := by
  unfold neighborhood
  calc ((List.range pts.length).filter (within pts params distance i)).length
      ≤ (List.range pts.length).length := List.length_filter_le _ _
    _ = pts.length := List.length_range _

/-- Two different neighbours make a core point when `minPoints` is 2. -/
theorem isCore_of_two_neighbours (pts : List Point) (params : ClusterParams)
    (distance : DistanceMetric) (i a b : Nat) (hmin : params.minPoints = 2) (hab : a ≠ b)
    (ha : a ∈ neighborhood pts params distance i) (hb : b ∈ neighborhood pts params distance i) :
    isCore pts params distance i = true := by
  have hnd : [a, b].Nodup := by simp [hab]
  have hsub : [a, b] ⊆ neighborhood pts params distance i := by
    intro x hx
    simp only [List.mem_cons, List.mem_singleton, List.not_mem_nil, or_false] at hx
    rcases hx with rfl | rfl
    · exact ha
    · exact hb
  have hlen := (List.subperm_of_subset hnd hsub).length_le
  simp only [List.length_cons, List.length_nil] at hlen
  simp only [isCore, hmin, decide_eq_true_eq]
  omega

/-- Labels closed under the successor step and clustered at index 0 are clustered
everywhere. -/
theorem all_clustered_of_closed (labels : List (Option Label)) (n cid : Nat)
    (hlen : labels.length = n) (h0 : 0 < n → labels[0]? = some (some (Label.cluster cid)))
    (hstep : ∀ i, i + 1 < n → labels[i]? = some (some (Label.cluster cid)) →
      labels[i + 1]? = some (some (Label.cluster cid))) :
    labels = List.replicate n (some (Label.cluster cid)) := by
  have hall : ∀ i, i < n → labels[i]? = some (some (Label.cluster cid)) := by
    intro i
    induction i with
    | zero => exact h0
    | succ k ih =>
      intro hk
      exact hstep k hk (ih (by omega))
  rw [List.eq_replicate_iff]
  refine ⟨hlen, ?_⟩
  intro b hb
  obtain ⟨i, hi, rfl⟩ := List.getElem_of_mem hb
  have := hall i (hlen ▸ hi)
  rw [List.getElem?_eq_getElem hi] at this
  exact Option.some.inj this

/-- Assigning an index that was not in a cluster lowers the number of unclustered labels by
one. -/
theorem countP_unclustered_set (labels : List (Option Label)) (j cid : Nat) (x : Option Label)
    (hj : labels[j]? = some x) (hx : unclustered x = true) :
    (labels.set j (some (Label.cluster cid))).countP unclustered + 1 = labels.countP unclustered := by
  have hlt : j < labels.length := by
    by_contra h
    rw [List.getElem?_eq_none (by omega)] at hj
    exact Option.noConfusion hj
  have hget : labels[j] = x := by
    rw [List.getElem?_eq_getElem hlt] at hj
    exact Option.some.inj hj
  have hle := List.boole_getElem_le_countP unclustered labels j hlt
  rw [List.countP_set unclustered labels j _ hlt]
  rw [hget, hx] at hle ⊢
  simp only [unclustered, if_true] at hle ⊢
  simp only [Bool.false_eq_true, if_false]
  omega

/-- The fuel of the expansion is enough: once it covers the queue plus `pts.length` steps per
unclustered index, one more unit of fuel does not change the result. -/
theorem expand_fuel_succ (pts : List Point) (params : ClusterParams) (distance : DistanceMetric)
    (cid : Nat) :
    ∀ (fuel : Nat) (queue : List Nat) (labels : List (Option Label)),
      queue.length + pts.length * labels.countP unclustered ≤ fuel →
      expand pts params distance cid (fuel + 1) queue labels
        = expand pts params distance cid fuel queue labels := by
  intro fuel
  induction fuel with
  | zero =>
    intro queue labels hfuel
    have hq : queue = [] := List.length_eq_zero.mp (by omega)
    subst hq
    simp only [expand]
  | succ fuel ih =>
    intro queue labels hfuel
    cases queue with
    | nil => simp only [expand]
    | cons j queue =>
      simp only [List.length_cons] at hfuel
      have hassign : ∀ x : Option Label, labels[j]? = some x → unclustered x = true →
          (if isCore pts params distance j = true then
            expand pts params distance cid (fuel + 1)
              (queue ++ neighborhood pts params distance j) (labels.set j (some (Label.cluster cid)))
          else
            expand pts params distance cid (fuel + 1) queue
              (labels.set j (some (Label.cluster cid))))
            = (if isCore pts params distance j = true then
            expand pts params distance cid fuel
              (queue ++ neighborhood pts params distance j) (labels.set j (some (Label.cluster cid)))
          else
            expand pts params distance cid fuel queue
              (labels.set j (some (Label.cluster cid)))) := by
        intro x hj hx
        have hcount := countP_unclustered_set labels j cid x hj hx
        have hnb := neighborhood_length_le pts params distance j
        have hmul : pts.length * labels.countP unclustered
            = pts.length * (labels.set j (some (Label.cluster cid))).countP unclustered
              + pts.length := by
          rw [← hcount, Nat.mul_add, Nat.mul_one]
        split
        · apply ih
          simp only [List.length_append]
          omega
        · apply ih
          omega
      rw [expand]
      conv_rhs => rw [expand]
      cases hj : labels[j]? with
      | none => exact ih queue labels (by omega)
      | some x =>
        cases x with
        | none => exact hassign none hj rfl
        | some l =>
          cases l with
          | noise => exact hassign (some .noise) hj rfl
          | cluster c => exact ih queue labels (by omega)

/-- Dropping a queue head that is already in the cluster keeps the invariant. -/
theorem ChainInv.skip {n cid j : Nat} {queue : List Nat} {labels : List (Option Label)}
    (h : ChainInv n cid (j :: queue) labels) (hj : labels[j]? = some (some (Label.cluster cid))) :
    ChainInv n cid queue labels := by
  refine ⟨h.length_eq, h.only_cid, ?_, ?_⟩
  · rcases h.start with h0 | h0
    · exact Or.inl h0
    · rcases List.mem_cons.mp h0 with rfl | h0
      · exact Or.inl hj
      · exact Or.inr h0
  · intro i hi hc
    rcases h.closed i hi hc with h1 | h1
    · exact Or.inl h1
    · rcases List.mem_cons.mp h1 with h1 | h1
      · exact Or.inl (h1 ▸ hj)
      · exact Or.inr h1

/-- Dropping a queue head that is not an index of the collection keeps the invariant. -/
theorem ChainInv.drop {n cid j : Nat} {queue : List Nat} {labels : List (Option Label)}
    (h : ChainInv n cid (j :: queue) labels) (hj : labels[j]? = none) (hpos : 0 < n) :
    ChainInv n cid queue labels := by
  have hge : n ≤ j := by
    by_contra hlt
    rw [List.getElem?_eq_getElem (by rw [h.length_eq]; omega)] at hj
    exact Option.noConfusion hj
  refine ⟨h.length_eq, h.only_cid, ?_, ?_⟩
  · rcases h.start with h0 | h0
    · exact Or.inl h0
    · rcases List.mem_cons.mp h0 with h0 | h0
      · omega
      · exact Or.inr h0
  · intro i hi hc
    rcases h.closed i hi hc with h1 | h1
    · exact Or.inl h1
    · rcases List.mem_cons.mp h1 with h1 | h1
      · omega
      · exact Or.inr h1

/-- Putting the queue head into the cluster keeps the invariant for every new queue that
retains the old entries and holds the successor of the head. -/
theorem ChainInv.assign {n cid j : Nat} {queue queue1 : List Nat} {labels : List (Option Label)}
    (h : ChainInv n cid (j :: queue) labels) (hlt : j < labels.length)
    (hsub : ∀ x ∈ queue, x ∈ queue1) (hsucc : j + 1 < n → j + 1 ∈ queue1) :
    ChainInv n cid queue1 (labels.set j (some (Label.cluster cid))) := by
  have hset : ∀ (i : Nat), labels[i]? = some (some (Label.cluster cid)) →
      (labels.set j (some (Label.cluster cid)))[i]? = some (some (Label.cluster cid)) := by
    intro i hi
    by_cases hij : j = i
    · subst hij
      simp [List.getElem?_set, hlt]
    · rw [List.getElem?_set_ne hij]
      exact hi
  have hself : (labels.set j (some (Label.cluster cid)))[j]? = some (some (Label.cluster cid)) := by
    simp [List.getElem?_set, hlt]
  refine ⟨by simp [h.length_eq], ?_, ?_, ?_⟩
  · intro i c hc
    by_cases hij : j = i
    · subst hij
      rw [hself] at hc
      cases hc
      rfl
    · rw [List.getElem?_set_ne hij] at hc
      exact h.only_cid i c hc
  · rcases h.start with h0 | h0
    · exact Or.inl (hset 0 h0)
    · rcases List.mem_cons.mp h0 with h0 | h0
      · exact Or.inl (h0 ▸ hself)
      · exact Or.inr (hsub 0 h0)
  · intro i hi hc
    by_cases hij : j = i
    · subst hij
      exact Or.inr (hsucc hi)
    · rw [List.getElem?_set_ne hij] at hc
      rcases h.closed i hi hc with h1 | h1
      · exact Or.inl (hset _ h1)
      · rcases List.mem_cons.mp h1 with h1 | h1
        · exact Or.inl (h1 ▸ hself)
        · exact Or.inr (hsub _ h1)

/-- With an empty queue the invariant says that the whole chain is in the cluster. -/
theorem ChainInv.done {n cid : Nat} {labels : List (Option Label)}
    (h : ChainInv n cid [] labels) : labels = List.replicate n (some (Label.cluster cid)) := by
  apply all_clustered_of_closed labels n cid h.length_eq
  · intro _
    rcases h.start with h0 | h0
    · exact h0
    · simp at h0
  · intro i hi hc
    rcases h.closed i hi hc with h1 | h1
    · exact h1
    · simp at h1

/-- On a chain whose points before the last are all core points, the expansion puts every
index into the cluster, provided the fuel covers the queue plus `n` steps per unclustered
index. -/
theorem expand_chain (pts : List Point) (params : ClusterParams) (distance : DistanceMetric)
    (cid : Nat)
    (hpos : 0 < pts.length)
    (hcore : ∀ i, i + 1 < pts.length → isCore pts params distance i = true)
    (hnext : ∀ i, i + 1 < pts.length → i + 1 ∈ neighborhood pts params distance i) :
    ∀ (fuel : Nat) (queue : List Nat) (labels : List (Option Label)),
      queue.length + pts.length * labels.countP unclustered ≤ fuel →
      ChainInv pts.length cid queue labels →
      expand pts params distance cid fuel queue labels
        = List.replicate pts.length (some (Label.cluster cid)) := by
  intro fuel
  induction fuel with
  | zero =>
    intro queue labels hfuel hinv
    have hq : queue = [] := List.length_eq_zero.mp (by omega)
    subst hq
    simp only [expand]
    exact hinv.done
  | succ fuel ih =>
    intro queue labels hfuel hinv
    cases queue with
    | nil =>
      simp only [expand]
      exact hinv.done
    | cons j queue =>
      simp only [List.length_cons] at hfuel
      have hassign : ∀ x : Option Label, labels[j]? = some x → unclustered x = true →
          (if isCore pts params distance j = true then
            expand pts params distance cid fuel (queue ++ neighborhood pts params distance j)
              (labels.set j (some (Label.cluster cid)))
          else
            expand pts params distance cid fuel queue (labels.set j (some (Label.cluster cid))))
            = List.replicate pts.length (some (Label.cluster cid)) := by
        intro x hj hx
        have hlt : j < labels.length := by
          by_contra hge
          rw [List.getElem?_eq_none (by omega)] at hj
          exact Option.noConfusion hj
        have hcount := countP_unclustered_set labels j cid x hj hx
        have hnb := neighborhood_length_le pts params distance j
        have hmul : pts.length * labels.countP unclustered
            = pts.length * (labels.set j (some (Label.cluster cid))).countP unclustered
              + pts.length := by
          rw [← hcount, Nat.mul_add, Nat.mul_one]
        split
        · apply ih
          · simp only [List.length_append]
            omega
          · exact hinv.assign hlt (fun x hx => List.mem_append_left _ hx)
              (fun hs => List.mem_append_right _ (hnext j hs))
        · next hnc =>
          apply ih
          · omega
          · refine hinv.assign hlt (fun x hx => hx) (fun hs => ?_)
            exact absurd (hcore j hs) hnc
      cases hj : labels[j]? with
      | none =>
        simp only [expand, hj]
        exact ih queue labels (by omega) (hinv.drop hj hpos)
      | some x =>
        cases x with
        | none =>
          simp only [expand, hj]
          exact hassign none hj rfl
        | some l =>
          cases l with
          | noise =>
            simp only [expand, hj]
            exact hassign (some .noise) hj rfl
          | cluster c =>
            simp only [expand, hj]
            have hc := hinv.only_cid j c hj
            subst hc
            exact ih queue labels (by omega) (hinv.skip hj)

/-- Once every index is in a cluster the scan changes nothing. -/
theorem scan_all_clustered (pts : List Point) (params : ClusterParams)
    (distance : DistanceMetric) (n cid : Nat) :
    ∀ (rest : List Nat) (nextId : Nat),
      scan pts params distance rest nextId (List.replicate n (some (Label.cluster cid)))
        = List.replicate n (some (Label.cluster cid)) := by
  intro rest
  induction rest with
  | nil =>
    intro nextId
    rfl
  | cons i rest ih =>
    intro nextId
    have hne : (List.replicate n (some (Label.cluster cid)))[i]? ≠ some none := by
      intro h
      have hmem := List.getElem?_mem h
      have := List.eq_of_mem_replicate hmem
      exact Option.noConfusion this
    unfold scan
    split
    · next heq => exact absurd heq hne
    · exact ih nextId

/-- The neighbourhood test between two indices of the collection, in terms of the metric. -/
theorem within_eq_true (pts : List Point) (params : ClusterParams) (distance : DistanceMetric)
    (i j : Nat) (hi : i < pts.length) (hj : j < pts.length)
    (h : distance pts[i] pts[j] ≤ params.epsilon) :
    within pts params distance i j = true := by
  simp only [within, List.getElem?_eq_getElem hi, List.getElem?_eq_getElem hj]
  exact decide_eq_true h

/-- C9: border-point absorption.  For a collection that is a chain (each feature within
`epsilon` of the next, the two ends farther than `epsilon` apart), clustering with
`minPoints = 2` under a metric assigns every index to cluster 0 and marks none noise. -/
theorem cluster_chain (collection : List Feature) (params : ClusterParams)
    (distance : DistanceMetric)
    (hmin : params.minPoints = 2)
    (hself : ∀ p, distance p p = 0)
    (heps : 0 < params.epsilon)
    (hchain : ∀ i (h : i + 1 < collection.length),
      distance collection[i].coordinates collection[i + 1].coordinates ≤ params.epsilon)
    (hends : ∃ hne : collection ≠ [],
      params.epsilon
        < distance (collection.head hne).coordinates (collection.getLast hne).coordinates) :
    cluster collection params distance
      = List.replicate collection.length (Label.cluster 0) := by
  obtain ⟨hne, hfar⟩ := hends
  have hlen2 : 2 ≤ collection.length := by
    match collection, hne, hfar with
    | [a], _, hfar =>
      simp only [List.head_cons, List.getLast_singleton, hself] at hfar
      exact absurd hfar (not_lt.mpr heps.le)
    | a :: b :: rest, _, _ => simp
  unfold cluster
  simp only
  generalize hpts : collection.map (fun f => f.coordinates) = pts
  have hlen : pts.length = collection.length := by simp [← hpts]
  have hget : ∀ i (h1 : i < pts.length) (h2 : i < collection.length),
      pts[i] = collection[i].coordinates := by
    intro i h1 h2
    simp [← hpts]
  have hrefl : ∀ i, i < pts.length → i ∈ neighborhood pts params distance i := by
    intro i hi
    rw [mem_neighborhood]
    refine ⟨hi, within_eq_true pts params distance i i hi hi ?_⟩
    rw [hself]
    exact heps.le
  have hnext : ∀ i, i + 1 < pts.length → i + 1 ∈ neighborhood pts params distance i := by
    intro i hi
    rw [mem_neighborhood]
    refine ⟨hi, within_eq_true pts params distance i (i + 1) (by omega) hi ?_⟩
    rw [hget i (by omega) (by omega), hget (i + 1) hi (by omega)]
    exact hchain i (by omega)
  have hcore : ∀ i, i + 1 < pts.length → isCore pts params distance i = true := by
    intro i hi
    exact isCore_of_two_neighbours pts params distance i i (i + 1) hmin (by omega)
      (hrefl i (by omega)) (hnext i hi)
  have hpos : 0 < pts.length := by omega
  obtain ⟨m, hm⟩ : ∃ m, pts.length = m + 1 := ⟨pts.length - 1, by omega⟩
  have hexp : expand pts params distance 0 (pts.length * pts.length + pts.length)
      (neighborhood pts params distance 0) (List.replicate pts.length none)
      = List.replicate pts.length (some (Label.cluster 0)) := by
    apply expand_chain pts params distance 0 hpos hcore hnext
    · have h1 := neighborhood_length_le pts params distance 0
      have h2 : (List.replicate pts.length (none : Option Label)).countP unclustered
          ≤ pts.length := by
        calc (List.replicate pts.length (none : Option Label)).countP unclustered
            ≤ (List.replicate pts.length (none : Option Label)).length := List.countP_le_length _
          _ = pts.length := List.length_replicate _ _
      have h3 := Nat.mul_le_mul_left pts.length h2
      omega
    · refine ⟨List.length_replicate _ _, ?_, Or.inr (hrefl 0 hpos), ?_⟩
      · intro i c hc
        have := List.eq_of_mem_replicate (List.getElem?_mem hc)
        exact Option.noConfusion this
      · intro i _ hc
        have := List.eq_of_mem_replicate (List.getElem?_mem hc)
        exact Option.noConfusion this
  have hscan : scan pts params distance (List.range pts.length) 0
      (List.replicate pts.length none) = List.replicate pts.length (some (Label.cluster 0)) := by
    have hrange : List.range pts.length = 0 :: (List.range m).map Nat.succ := by
      rw [hm, List.range_succ_eq_map]
    have h0 : (List.replicate pts.length (none : Option Label))[0]? = some none := by
      simp [List.getElem?_replicate, hpos]
    rw [hrange]
    simp only [scan, h0, hcore 0 (by omega), if_true, hexp]
    exact scan_all_clustered pts params distance pts.length 0 _ _
  rw [hscan, List.map_replicate, hlen]
  rfl

/-- Witness for C9: three points 0.04 apart on a line, with `epsilon = 0.05`; the ends are
0.08 apart. -/
theorem cluster_chain_witness :
    (0.05 : ℚ) < taxicab (featureAt 0 0).coordinates (featureAt 0.08 0).coordinates ∧
      cluster [featureAt 0 0, featureAt 0.04 0, featureAt 0.08 0] ⟨0.05, 2⟩ taxicab
        = [Label.cluster 0, Label.cluster 0, Label.cluster 0] :=
  ⟨by norm_num [taxicab, featureAt, lt_abs],
    cluster_chain [featureAt 0 0, featureAt 0.04 0, featureAt 0.08 0] ⟨0.05, 2⟩ taxicab rfl
      (by intro p; simp [taxicab]) (by norm_num)
      (by
        intro i h
        have hi : i < 2 := by
          simp only [List.length_cons, List.length_nil] at h
          omega
        interval_cases i <;> norm_num [taxicab, featureAt, abs_le])
      ⟨by simp, by norm_num [taxicab, featureAt, lt_abs]⟩⟩

end ClusterEngine

end Dash
